import Mathlib

/-!
Shallow embedding of the ScummVM ELF plugin loader's ARM relocation engine
(`backends/plugins/elf/arm-loader.cpp`: `ARMDLObject::relocate` and
`ARMDLObject::relocateRels`), together with theorems settling the spec's
claims about it.

Machine integers are modelled as `Nat`/`Int` with explicit reduction modulo
2^32 where the C code performs 32-bit arithmetic.  The address space is a
total function from byte addresses to byte values; 32-bit words are read and
written little-endian (the ARM targets of this loader are little-endian).
The object file is a byte list; the stream `seek`/`read` pair used by
`relocate` succeeds exactly when the requested `size` bytes starting at
`offset` lie inside the file.
-/

/-- ELF relocation type `R_ARM_PC24` (value from the ELF ARM ABI, used via the
repository's ELF header which is not part of the sources under study). -/
def R_ARM_PC24 : Nat := 1

/-- ELF relocation type `R_ARM_ABS32`. -/
def R_ARM_ABS32 : Nat := 2

/-- ELF relocation type `R_ARM_THM_CALL`. -/
def R_ARM_THM_CALL : Nat := 10

/-- ELF relocation type `R_ARM_CALL`. -/
def R_ARM_CALL : Nat := 28

/-- ELF relocation type `R_ARM_JUMP24`. -/
def R_ARM_JUMP24 : Nat := 29

/-- ELF relocation type `R_ARM_TARGET1`. -/
def R_ARM_TARGET1 : Nat := 38

/-- ELF relocation type `R_ARM_V4BX`. -/
def R_ARM_V4BX : Nat := 40

/-- ELF reserved section-index threshold `SHN_LOPROC` (0xff00): symbols whose
defining-section index is at or above this value are external/absolute. -/
def SHN_LOPROC : Nat := 65280

/-- ELF section type `SHT_RELA` (addend-carrying relocation encoding). -/
def SHT_RELA : Nat := 4

/-- ELF section type `SHT_REL` (simple relocation encoding). -/
def SHT_REL : Nat := 9

/-- ELF section flag `SHF_ALLOC` (section occupies memory at run time). -/
def SHF_ALLOC : Nat := 2

/-- Modelled from the spec: the simple relocation encoding's entry is a target
offset plus a packed symbol-index/type word, i.e. two 32-bit fields, so
`sizeof(Elf32_Rel) = 8`.  The `Elf32_Rel` struct lives in the repository's ELF
header, which is not among the sources under study. -/
def sizeofElf32Rel : Nat := 8

/-- Modelled from the spec: unpacking the symbol index from the packed
`r_info` field (`REL_INDEX(x) = x >> 8`, standard ELF32 `ELF32_R_SYM`). -/
def REL_INDEX (info : Nat) : Nat := info / 256

/-- Modelled from the spec: unpacking the relocation type from the packed
`r_info` field (`REL_TYPE(x) = x & 0xff`, standard ELF32 `ELF32_R_TYPE`). -/
def REL_TYPE (info : Nat) : Nat := info % 256

/-- Reduce an integer to the corresponding 32-bit unsigned value. -/
def wrap32 (x : Int) : Nat := (x % 4294967296).toNat

/-- Reinterpret a 32-bit unsigned value as a signed `int32` (used for the
`int32(curShdr->sh_link) == _symtab_sect` comparison). -/
def int32ofUInt32 (x : Nat) : Int :=
  if x < 2147483648 then (x : Int) else (x : Int) - 4294967296

/-- The byte-addressable address space: byte address to byte value. -/
abbrev Mem : Type := Nat → Nat

/-- Read the little-endian 32-bit word at byte address `t`. -/
def readWord32 (m : Mem) (t : Nat) : Nat :=
  m t + 256 * m (t + 1) + 65536 * m (t + 2) + 16777216 * m (t + 3)

/-- Write the little-endian 32-bit word `v` at byte address `t`. -/
def writeWord32 (m : Mem) (t : Nat) (v : Nat) : Mem := fun a =>
  if a = t then v % 256
  else if a = t + 1 then v / 256 % 256
  else if a = t + 2 then v / 65536 % 256
  else if a = t + 3 then v / 16777216 % 256
  else m a

/-- One relocation entry of the simple encoding (`Elf32_Rel`). -/
structure Elf32_Rel where
  r_offset : Nat
  r_info : Nat
deriving DecidableEq

/-- A symbol-table entry; the relocation engine only reads `st_shndx`. -/
structure Elf32_Sym where
  st_shndx : Nat
deriving DecidableEq

/-- A section header, restricted to the fields `relocateRels` reads. -/
structure Elf32_Shdr where
  sh_type : Nat
  sh_flags : Nat
  sh_offset : Nat
  sh_size : Nat
  sh_link : Nat
  sh_info : Nat
  sh_entsize : Nat
deriving DecidableEq

/-- The ELF header, restricted to the field `relocateRels` reads. -/
structure Elf32_Ehdr where
  e_shnum : Nat
deriving DecidableEq

/-- The state of an `ARMDLObject` that `relocate`/`relocateRels` read:
the object file stream, the parsed symbol table (`_symtab`, total since the
C code indexes it unchecked), the symbol-table section index `_symtab_sect`,
the original link-time base `_segmentVMA` and the runtime segment base
address `_segment`. -/
structure ARMDLObject where
  file : List Nat
  symtab : Nat → Elf32_Sym
  symtab_sect : Int
  segmentVMA : Nat
  segment : Nat

/-- The patch target address: `(byte *)relSegment + rel[i].r_offset - _segmentVMA`,
32-bit pointer arithmetic. -/
def targetAddr (relSegment VMA roffset : Nat) : Nat :=
  wrap32 ((relSegment : Int) + (roffset : Int) - (VMA : Int))

/-- The patched word for an absolute fixup:
`relocation = a - _segmentVMA + Elf32_Addr(_segment)` in 32-bit arithmetic. -/
def relocValue (a VMA B : Nat) : Nat :=
  wrap32 ((a : Int) - (VMA : Int) + (B : Int))

/-- Byte `k` of a byte buffer (out-of-range reads yield 0; the callers below
only read in range). -/
def byteAt (bs : List Nat) (k : Nat) : Nat := bs.getD k 0

/-- The little-endian 32-bit word starting at position `k` of a buffer. -/
def le32At (bs : List Nat) (k : Nat) : Nat :=
  byteAt bs k + 256 * byteAt bs (k + 1) + 65536 * byteAt bs (k + 2) +
    16777216 * byteAt bs (k + 3)

/-- Decode `rel[i]` from the raw relocation-table buffer. -/
def decodeRel (bs : List Nat) (i : Nat) : Elf32_Rel :=
  ⟨le32At bs (8 * i), le32At bs (8 * i + 4)⟩

/-- The decoded entries `rel[0] .. rel[cnt-1]` of a relocation-table buffer. -/
def relEntries (bs : List Nat) (cnt : Nat) : List Elf32_Rel :=
  (List.range cnt).map (decodeRel bs)

/-- The `size` bytes of the object file starting at `offset` (the buffer the
C code reads the relocation table into). -/
def relBytes (file : List Nat) (offset size : Nat) : List Nat :=
  (file.drop offset).take size

/-- The body of `relocate`'s per-entry `switch`: `some` of the updated address
space when the entry is handled, `none` for an unknown relocation type
(the `default:` branch, which fails the call). -/
def processEntry (symtab : Nat → Elf32_Sym) (VMA B relSegment : Nat) (m : Mem)
    (e : Elf32_Rel) : Option Mem :=
  let sym := symtab (REL_INDEX e.r_info)
  let t := targetAddr relSegment VMA e.r_offset
  let ty := REL_TYPE e.r_info
  if ty = R_ARM_ABS32 ∨ ty = R_ARM_TARGET1 then
    if sym.st_shndx < SHN_LOPROC then
      let a := readWord32 m t
      some (writeWord32 m t (relocValue a VMA B))
    else
      some m
  else if ty = R_ARM_PC24 then some m
  else if ty = R_ARM_THM_CALL then some m
  else if ty = R_ARM_CALL ∨ ty = R_ARM_JUMP24 then some m
  else if ty = R_ARM_V4BX then some m
  else none

/-- `relocate`'s entry loop: processes entries in order, stopping with failure
at the first entry of unknown type (already-applied patches stay in place). -/
def relocLoop (symtab : Nat → Elf32_Sym) (VMA B relSegment : Nat) :
    List Elf32_Rel → Mem → Bool × Mem
  | [], m => (true, m)
  | e :: es, m =>
    match processEntry symtab VMA B relSegment m e with
    | some m2 => relocLoop symtab VMA B relSegment es m2
    | none => (false, m)

/-- Scratch-buffer lifecycle events of one loader call (`malloc`/`free` of the
relocation-table buffer). -/
inductive AllocEvent
  | alloc
  | free
deriving DecidableEq

/-- Result of `relocate`: the returned boolean, the address space after the
call, and the scratch-buffer events the call performed, in order. -/
structure RelocateResult where
  ok : Bool
  mem : Mem
  trace : List AllocEvent

/-- `ARMDLObject::relocate(offset, size, relSegment)`.  `mallocOk` models
whether the `malloc` of the relocation-table buffer succeeds; the
`seek`/`read` pair succeeds exactly when `offset + size` bytes are available
in the object file. -/
def relocate (obj : ARMDLObject) (offset size relSegment : Nat)
    (mallocOk : Bool) (m : Mem) : RelocateResult :=
  if mallocOk = false then
    ⟨false, m, []⟩
  else if ¬ offset + size ≤ obj.file.length then
    ⟨false, m, [AllocEvent.alloc, AllocEvent.free]⟩
  else
    let bs := relBytes obj.file offset size
    let cnt := size / sizeofElf32Rel
    let p := relocLoop obj.symtab obj.segmentVMA obj.segment relSegment
      (relEntries bs cnt) m
    ⟨p.1, p.2, [AllocEvent.alloc, AllocEvent.free]⟩

/-- The qualification test of `relocateRels`'s `if`: relocation section type,
entry size `sizeof(Elf32_Rel)`, `sh_link` matching `_symtab_sect` (as a signed
comparison), a valid `sh_info` index, and the relocated section resident in
memory (`SHF_ALLOC`). -/
def sectionQualifies (symtabSect : Int) (ehdr : Elf32_Ehdr)
    (shdr : Nat → Elf32_Shdr) (i : Nat) : Bool :=
  let s := shdr i
  (s.sh_type == SHT_REL || s.sh_type == SHT_RELA) &&
    s.sh_entsize == sizeofElf32Rel &&
    int32ofUInt32 s.sh_link == symtabSect &&
    decide (s.sh_info < ehdr.e_shnum) &&
    Nat.land (shdr s.sh_info).sh_flags SHF_ALLOC != 0

/-- Result of `relocateRels`: returned boolean, final address space, the
concatenated scratch-buffer event trace, and the indices of the sections that
were passed to `relocate` (in call order). -/
structure RelsResult where
  ok : Bool
  mem : Mem
  trace : List AllocEvent
  processed : List Nat

/-- The section loop of `relocateRels` over a list of section indices. -/
def relocateRelsLoop (obj : ARMDLObject) (ehdr : Elf32_Ehdr)
    (shdr : Nat → Elf32_Shdr) (mallocOk : Nat → Bool) :
    List Nat → Mem → RelsResult
  | [], m => ⟨true, m, [], []⟩
  | i :: rest, m =>
    if sectionQualifies obj.symtab_sect ehdr shdr i then
      if (shdr i).sh_type = SHT_RELA then
        ⟨false, m, [], []⟩
      else
        let r := relocate obj (shdr i).sh_offset (shdr i).sh_size obj.segment
          (mallocOk i) m
        if r.ok then
          let tail := relocateRelsLoop obj ehdr shdr mallocOk rest r.mem
          ⟨tail.ok, tail.mem, r.trace ++ tail.trace, i :: tail.processed⟩
        else
          ⟨false, r.mem, r.trace, [i]⟩
    else
      relocateRelsLoop obj ehdr shdr mallocOk rest m

/-- `ARMDLObject::relocateRels(ehdr, shdr)`: loop over all `e_shnum` section
headers. -/
def relocateRels (obj : ARMDLObject) (ehdr : Elf32_Ehdr)
    (shdr : Nat → Elf32_Shdr) (mallocOk : Nat → Bool) (m : Mem) : RelsResult :=
  relocateRelsLoop obj ehdr shdr mallocOk (List.range ehdr.e_shnum) m

/-- A loaded plugin handle (only its existence matters here). -/
structure Plugin where
  entry : Nat
deriving DecidableEq

/-- Modelled from the spec: the caller of `relocateRels` (the generic
`DLObject::load` path, not among the sources under study) creates a `Plugin`
"only after every relocation in the object succeeds; any earlier failure
yields no Plugin at all". -/
def loadPlugin (relocOk : Bool) (entryAddr : Nat) : Option Plugin :=
  if relocOk then some ⟨entryAddr⟩ else none

/-- The relocation types the `switch` of `relocate` handles. -/
def relTypeKnown (ty : Nat) : Bool :=
  ty == R_ARM_ABS32 || ty == R_ARM_TARGET1 || ty == R_ARM_PC24 ||
    ty == R_ARM_THM_CALL || ty == R_ARM_CALL || ty == R_ARM_JUMP24 ||
    ty == R_ARM_V4BX

/-- The self-relative branch/call types plus the `R_ARM_V4BX` no-op marker:
the types whose cases in the `switch` do not touch memory. -/
def selfRelOrNoop (ty : Nat) : Bool :=
  ty == R_ARM_PC24 || ty == R_ARM_THM_CALL || ty == R_ARM_CALL ||
    ty == R_ARM_JUMP24 || ty == R_ARM_V4BX

/-- Live scratch-buffer count after one event. -/
def stepLive (c : Int) (e : AllocEvent) : Int :=
  match e with
  | AllocEvent.alloc => c + 1
  | AllocEvent.free => c - 1

/-- Live scratch-buffer count after a trace, starting from `c`. -/
def finalLive (c : Int) : List AllocEvent → Int
  | [] => c
  | e :: es => finalLive (stepLive c e) es

/-- Every intermediate live count along the trace (the starting count
included) stays at most 1. -/
def liveBounded (c : Int) : List AllocEvent → Prop
  | [] => c ≤ 1
  | e :: es => c ≤ 1 ∧ liveBounded (stepLive c e) es

/-- Writing then reading the same word address recovers the value modulo 2^32. -/
theorem readWord32_writeWord32 (m : Mem) (t v : Nat) :
    readWord32 (writeWord32 m t v) t = v % 4294967296 := by
  have h1 : ¬ t + 1 = t := by omega
  have h2 : ¬ t + 2 = t := by omega
  have h2' : ¬ t + 2 = t + 1 := by omega
  have h3 : ¬ t + 3 = t := by omega
  have h3' : ¬ t + 3 = t + 1 := by omega
  have h3'' : ¬ t + 3 = t + 2 := by omega
  simp only [readWord32, writeWord32, if_pos rfl, if_neg h1, if_neg h2,
    if_neg h2', if_neg h3, if_neg h3', if_neg h3'', eq_self_iff_true, if_true]
  omega

/-- `wrap32` lands in `[0, 2^32)`. -/
theorem wrap32_lt (x : Int) : wrap32 x < 4294967296 := by
  have h1 : (0 : Int) ≤ x % 4294967296 := Int.emod_nonneg x (by norm_num)
  have h2 : x % 4294967296 < 4294967296 := Int.emod_lt_of_pos x (by norm_num)
  unfold wrap32
  omega

/-- `relocValue` is already reduced, so the word written for an absolute fixup
is read back verbatim. -/
theorem readWord32_write_relocValue (m : Mem) (t a VMA B : Nat) :
    readWord32 (writeWord32 m t (relocValue a VMA B)) t = relocValue a VMA B := by
  rw [readWord32_writeWord32]
  exact Nat.mod_eq_of_lt (wrap32_lt _)

/-- A self-relative or no-op entry is handled without touching memory. -/
theorem processEntry_selfRelOrNoop (symtab : Nat → Elf32_Sym)
    (VMA B relSegment : Nat) (m : Mem) (e : Elf32_Rel)
    (h : selfRelOrNoop (REL_TYPE e.r_info) = true) :
    processEntry symtab VMA B relSegment m e = some m := by
  have hx := h
  simp only [selfRelOrNoop, Bool.or_eq_true, beq_iff_eq] at hx
  unfold processEntry
  rcases hx with ((((h1 | h1) | h1) | h1) | h1) <;>
    simp [h1, R_ARM_PC24, R_ARM_THM_CALL, R_ARM_CALL, R_ARM_JUMP24, R_ARM_V4BX,
      R_ARM_ABS32, R_ARM_TARGET1]

/-- An absolute fixup whose symbol is external (defining-section index at or
above `SHN_LOPROC`) is handled without touching memory. -/
theorem processEntry_externalAbs (symtab : Nat → Elf32_Sym)
    (VMA B relSegment : Nat) (m : Mem) (e : Elf32_Rel)
    (hty : REL_TYPE e.r_info = R_ARM_ABS32 ∨ REL_TYPE e.r_info = R_ARM_TARGET1)
    (hsym : SHN_LOPROC ≤ (symtab (REL_INDEX e.r_info)).st_shndx) :
    processEntry symtab VMA B relSegment m e = some m := by
  unfold processEntry
  rw [if_pos hty, if_neg (by omega)]

/-- An absolute fixup for an internal symbol writes
`relocValue (readWord32 m target) VMA B` at the target. -/
theorem processEntry_internalAbs (symtab : Nat → Elf32_Sym)
    (VMA B relSegment : Nat) (m : Mem) (e : Elf32_Rel)
    (hty : REL_TYPE e.r_info = R_ARM_ABS32 ∨ REL_TYPE e.r_info = R_ARM_TARGET1)
    (hsym : (symtab (REL_INDEX e.r_info)).st_shndx < SHN_LOPROC) :
    processEntry symtab VMA B relSegment m e =
      some (writeWord32 m (targetAddr relSegment VMA e.r_offset)
        (relocValue (readWord32 m (targetAddr relSegment VMA e.r_offset))
          VMA B)) := by
  unfold processEntry
  rw [if_pos hty, if_pos hsym]

/-- An entry of unknown relocation type reaches the `default:` branch. -/
theorem processEntry_unknown (symtab : Nat → Elf32_Sym)
    (VMA B relSegment : Nat) (m : Mem) (e : Elf32_Rel)
    (h : relTypeKnown (REL_TYPE e.r_info) = false) :
    processEntry symtab VMA B relSegment m e = none := by
  have hx := h
  simp only [relTypeKnown, Bool.or_eq_false_iff, beq_eq_false_iff_ne, ne_eq]
    at hx
  unfold processEntry
  simp [hx.1.1.1.1.1.1, hx.1.1.1.1.1.2, hx.1.1.1.1.2, hx.1.1.1.2, hx.1.1.2,
    hx.1.2, hx.2]

/-- An entry of known relocation type is handled (never the `default:`
branch). -/
theorem processEntry_known (symtab : Nat → Elf32_Sym)
    (VMA B relSegment : Nat) (m : Mem) (e : Elf32_Rel)
    (h : relTypeKnown (REL_TYPE e.r_info) = true) :
    ∃ m2, processEntry symtab VMA B relSegment m e = some m2 := by
  by_cases habs : REL_TYPE e.r_info = R_ARM_ABS32 ∨ REL_TYPE e.r_info = R_ARM_TARGET1
  · by_cases hs : (symtab (REL_INDEX e.r_info)).st_shndx < SHN_LOPROC
    · exact ⟨_, processEntry_internalAbs symtab VMA B relSegment m e habs hs⟩
    · exact ⟨m, processEntry_externalAbs symtab VMA B relSegment m e habs
        (by omega)⟩
  · refine ⟨m, processEntry_selfRelOrNoop symtab VMA B relSegment m e ?_⟩
    have hx := h
    simp only [relTypeKnown, Bool.or_eq_true, beq_iff_eq] at hx
    simp only [selfRelOrNoop, Bool.or_eq_true, beq_iff_eq]
    tauto

/-- A table of only self-relative/no-op entries is processed successfully and
leaves the address space untouched. -/
theorem relocLoop_selfRelOrNoop (symtab : Nat → Elf32_Sym)
    (VMA B relSegment : Nat) :
    ∀ (es : List Elf32_Rel) (m : Mem),
      (∀ e ∈ es, selfRelOrNoop (REL_TYPE e.r_info) = true) →
      relocLoop symtab VMA B relSegment es m = (true, m)
  | [], _, _ => rfl
  | e :: es, m, h => by
    have he : selfRelOrNoop (REL_TYPE e.r_info) = true :=
      h e (List.mem_cons_self e es)
    have hrest : ∀ x ∈ es, selfRelOrNoop (REL_TYPE x.r_info) = true :=
      fun x hx => h x (List.mem_cons_of_mem e hx)
    unfold relocLoop
    rw [processEntry_selfRelOrNoop symtab VMA B relSegment m e he]
    exact relocLoop_selfRelOrNoop symtab VMA B relSegment es m hrest

/-- Processing stops, with failure, at the first entry of unknown type; the
patches of the earlier (known) entries remain. -/
theorem relocLoop_firstUnknown (symtab : Nat → Elf32_Sym)
    (VMA B relSegment : Nat) :
    ∀ (good : List Elf32_Rel) (bad : Elf32_Rel) (rest : List Elf32_Rel)
      (m : Mem),
      (∀ e ∈ good, relTypeKnown (REL_TYPE e.r_info) = true) →
      relTypeKnown (REL_TYPE bad.r_info) = false →
      relocLoop symtab VMA B relSegment (good ++ bad :: rest) m =
        (false, (relocLoop symtab VMA B relSegment good m).2)
  | [], bad, rest, m, _, hbad => by
    show relocLoop symtab VMA B relSegment (bad :: rest) m = (false, m)
    simp only [relocLoop,
      processEntry_unknown symtab VMA B relSegment m bad hbad]
  | e :: good, bad, rest, m, hgood, hbad => by
    have he : relTypeKnown (REL_TYPE e.r_info) = true :=
      hgood e (List.mem_cons_self e good)
    obtain ⟨m2, hm2⟩ := processEntry_known symtab VMA B relSegment m e he
    have hrest : ∀ x ∈ good, relTypeKnown (REL_TYPE x.r_info) = true :=
      fun x hx => hgood x (List.mem_cons_of_mem e hx)
    have hstep : ∀ l : List Elf32_Rel,
        relocLoop symtab VMA B relSegment (e :: l) m =
          relocLoop symtab VMA B relSegment l m2 := by
      intro l
      simp only [relocLoop, hm2]
    calc relocLoop symtab VMA B relSegment ((e :: good) ++ bad :: rest) m
        = relocLoop symtab VMA B relSegment (good ++ bad :: rest) m2 :=
          hstep (good ++ bad :: rest)
      _ = (false, (relocLoop symtab VMA B relSegment good m2).2) :=
          relocLoop_firstUnknown symtab VMA B relSegment good bad rest m2
            hrest hbad
      _ = (false, (relocLoop symtab VMA B relSegment (e :: good) m).2) := by
          rw [hstep good]

/-- A qualifying section's type is one of the two relocation section types. -/
theorem sectionQualifies_type (symtabSect : Int) (ehdr : Elf32_Ehdr)
    (shdr : Nat → Elf32_Shdr) (i : Nat)
    (h : sectionQualifies symtabSect ehdr shdr i = true) :
    (shdr i).sh_type = SHT_REL ∨ (shdr i).sh_type = SHT_RELA := by
  simp only [sectionQualifies, Bool.and_eq_true, Bool.or_eq_true,
    beq_iff_eq] at h
  exact h.1.1.1.1

/-- Sections that do not qualify are skipped by the section loop. -/
theorem relocateRelsLoop_skip (obj : ARMDLObject) (ehdr : Elf32_Ehdr)
    (shdr : Nat → Elf32_Shdr) (mallocOk : Nat → Bool) :
    ∀ (idxs1 idxs2 : List Nat) (m : Mem),
      (∀ i ∈ idxs1, sectionQualifies obj.symtab_sect ehdr shdr i = false) →
      relocateRelsLoop obj ehdr shdr mallocOk (idxs1 ++ idxs2) m =
        relocateRelsLoop obj ehdr shdr mallocOk idxs2 m
  | [], _, _, _ => by simp
  | i :: idxs1, idxs2, m, h => by
    have hi := h i (List.mem_cons_self i idxs1)
    have hcond : ¬ sectionQualifies obj.symtab_sect ehdr shdr i = true := by
      simp [hi]
    show relocateRelsLoop obj ehdr shdr mallocOk (i :: (idxs1 ++ idxs2)) m = _
    simp only [relocateRelsLoop]
    rw [if_neg hcond]
    exact relocateRelsLoop_skip obj ehdr shdr mallocOk idxs1 idxs2 m
      (fun x hx => h x (List.mem_cons_of_mem i hx))

/-- Every section passed to `relocate` by the section loop qualifies, and its
type is `SHT_REL` (a qualifying `SHT_RELA` section aborts instead). -/
theorem relocateRelsLoop_processed_qualifies (obj : ARMDLObject)
    (ehdr : Elf32_Ehdr) (shdr : Nat → Elf32_Shdr) (mallocOk : Nat → Bool) :
    ∀ (idxs : List Nat) (m : Mem) (i : Nat),
      i ∈ (relocateRelsLoop obj ehdr shdr mallocOk idxs m).processed →
      sectionQualifies obj.symtab_sect ehdr shdr i = true ∧
        (shdr i).sh_type = SHT_REL
  | [], m, i, h => by simp [relocateRelsLoop] at h
  | j :: idxs, m, i, h => by
    by_cases hq : sectionQualifies obj.symtab_sect ehdr shdr j = true
    · by_cases hra : (shdr j).sh_type = SHT_RELA
      · exfalso
        simp only [relocateRelsLoop, if_pos hq, if_pos hra] at h
        simp at h
      · have hrel : (shdr j).sh_type = SHT_REL := by
          rcases sectionQualifies_type obj.symtab_sect ehdr shdr j hq with
            hx | hx
          · exact hx
          · exact absurd hx hra
        simp only [relocateRelsLoop, if_pos hq, if_neg hra] at h
        split at h
        · simp only [List.mem_cons] at h
          rcases h with h | h
          · subst h
            exact ⟨hq, hrel⟩
          · exact relocateRelsLoop_processed_qualifies obj ehdr shdr mallocOk
              idxs _ i h
        · simp only [List.mem_singleton] at h
          subst h
          exact ⟨hq, hrel⟩
    · have hcond : ¬ sectionQualifies obj.symtab_sect ehdr shdr j = true := hq
      simp only [relocateRelsLoop, if_neg hcond] at h
      exact relocateRelsLoop_processed_qualifies obj ehdr shdr mallocOk
        idxs m i h

/-- If the section loop succeeds, every qualifying section in the index list
was passed to `relocate`. -/
theorem relocateRelsLoop_ok_processes (obj : ARMDLObject) (ehdr : Elf32_Ehdr)
    (shdr : Nat → Elf32_Shdr) (mallocOk : Nat → Bool) :
    ∀ (idxs : List Nat) (m : Mem),
      (relocateRelsLoop obj ehdr shdr mallocOk idxs m).ok = true →
      ∀ j ∈ idxs, sectionQualifies obj.symtab_sect ehdr shdr j = true →
        j ∈ (relocateRelsLoop obj ehdr shdr mallocOk idxs m).processed
  | [], m, _, j, hj, _ => by simp at hj
  | i :: idxs, m, hok, j, hj, hqj => by
    by_cases hq : sectionQualifies obj.symtab_sect ehdr shdr i = true
    · by_cases hra : (shdr i).sh_type = SHT_RELA
      · exfalso
        simp only [relocateRelsLoop, if_pos hq, if_pos hra] at hok
        simp at hok
      · simp only [relocateRelsLoop, if_pos hq, if_neg hra] at hok ⊢
        split at hok
        · next hrok =>
            rw [if_pos hrok]
            simp only [List.mem_cons] at hj
            rcases hj with hj | hj
            · subst hj
              exact List.mem_cons_self j _
            · exact List.mem_cons_of_mem i
                (relocateRelsLoop_ok_processes obj ehdr shdr mallocOk idxs _
                  hok j hj hqj)
        · simp at hok
    · have hcond : ¬ sectionQualifies obj.symtab_sect ehdr shdr i = true := hq
      simp only [relocateRelsLoop, if_neg hcond] at hok ⊢
      simp only [List.mem_cons] at hj
      rcases hj with hj | hj
      · subst hj
        exact absurd hqj hq
      · exact relocateRelsLoop_ok_processes obj ehdr shdr mallocOk idxs m
          hok j hj hqj

/-- If any section in the index list qualifies and has the addend-carrying
type `SHT_RELA`, the section loop returns failure. -/
theorem relocateRelsLoop_rela_fails (obj : ARMDLObject) (ehdr : Elf32_Ehdr)
    (shdr : Nat → Elf32_Shdr) (mallocOk : Nat → Bool) :
    ∀ (idxs : List Nat) (m : Mem) (j : Nat), j ∈ idxs →
      sectionQualifies obj.symtab_sect ehdr shdr j = true →
      (shdr j).sh_type = SHT_RELA →
      (relocateRelsLoop obj ehdr shdr mallocOk idxs m).ok = false
  | [], m, j, hj, _, _ => by simp at hj
  | i :: idxs, m, j, hj, hqj, hraj => by
    by_cases hq : sectionQualifies obj.symtab_sect ehdr shdr i = true
    · by_cases hra : (shdr i).sh_type = SHT_RELA
      · simp only [relocateRelsLoop, if_pos hq, if_pos hra]
      · simp only [relocateRelsLoop, if_pos hq, if_neg hra]
        have hj' : j ∈ idxs := by
          simp only [List.mem_cons] at hj
          rcases hj with hj | hj
          · subst hj
            exact absurd hraj hra
          · exact hj
        split
        · next hrok =>
            exact relocateRelsLoop_rela_fails obj ehdr shdr mallocOk idxs _
              j hj' hqj hraj
        · rfl
    · have hcond : ¬ sectionQualifies obj.symtab_sect ehdr shdr i = true := hq
      simp only [relocateRelsLoop, if_neg hcond]
      have hj' : j ∈ idxs := by
        simp only [List.mem_cons] at hj
        rcases hj with hj | hj
        · subst hj
          exact absurd hqj hq
        · exact hj
      exact relocateRelsLoop_rela_fails obj ehdr shdr mallocOk idxs m
        j hj' hqj hraj

/-- `finalLive` over a concatenation chains the counts. -/
theorem finalLive_append (a : List AllocEvent) :
    ∀ (b : List AllocEvent) (c : Int),
      finalLive c (a ++ b) = finalLive (finalLive c a) b := by
  induction a with
  | nil => intro b c; rfl
  | cons e es ih =>
    intro b c
    show finalLive (stepLive c e) (es ++ b) = _
    rw [ih b (stepLive c e)]
    rfl

/-- `liveBounded` over a concatenation, from bounds on the pieces. -/
theorem liveBounded_append (a : List AllocEvent) :
    ∀ (b : List AllocEvent) (c : Int),
      liveBounded c a → liveBounded (finalLive c a) b →
      liveBounded c (a ++ b) := by
  induction a with
  | nil =>
    intro b c ha hb
    exact hb
  | cons e es ih =>
    intro b c ha hb
    exact ⟨ha.1, ih b (stepLive c e) ha.2 hb⟩

/-- The scratch-buffer trace of one `relocate` call: a single `malloc`/`free`
pair when the allocation succeeds, nothing otherwise. -/
theorem relocate_trace (obj : ARMDLObject) (offset size relSegment : Nat)
    (mallocOk : Bool) (m : Mem) :
    (relocate obj offset size relSegment mallocOk m).trace =
      if mallocOk = true then [AllocEvent.alloc, AllocEvent.free] else [] := by
  cases mallocOk <;>
    by_cases hr : offset + size ≤ obj.file.length <;>
      simp [relocate, hr]

/-- A single `malloc`/`free` pair is balanced. -/
theorem finalLive_pair (c : Int) :
    finalLive c [AllocEvent.alloc, AllocEvent.free] = c := by
  show c + 1 - 1 = c
  omega

/-- A single `malloc`/`free` pair keeps at most one buffer live when starting
from at most zero. -/
theorem liveBounded_pair (c : Int) (h : c ≤ 0) :
    liveBounded c [AllocEvent.alloc, AllocEvent.free] := by
  simp only [liveBounded, stepLive]
  omega

/-- Balance and single-buffer bound for one `relocate` call's trace. -/
theorem relocate_trace_balanced (obj : ARMDLObject)
    (offset size relSegment : Nat) (mallocOk : Bool) (m : Mem) :
    finalLive 0 (relocate obj offset size relSegment mallocOk m).trace = 0 ∧
      liveBounded 0 (relocate obj offset size relSegment mallocOk m).trace := by
  rw [relocate_trace]
  cases mallocOk
  · exact ⟨rfl, by norm_num [liveBounded]⟩
  · refine ⟨finalLive_pair 0, liveBounded_pair 0 le_rfl⟩

/-- Balance and single-buffer bound for the section loop's whole trace. -/
theorem relocateRelsLoop_trace_balanced (obj : ARMDLObject)
    (ehdr : Elf32_Ehdr) (shdr : Nat → Elf32_Shdr) (mallocOk : Nat → Bool) :
    ∀ (idxs : List Nat) (m : Mem),
      finalLive 0 (relocateRelsLoop obj ehdr shdr mallocOk idxs m).trace = 0 ∧
        liveBounded 0 (relocateRelsLoop obj ehdr shdr mallocOk idxs m).trace
  | [], m => ⟨rfl, by norm_num [liveBounded]⟩
  | i :: idxs, m => by
    by_cases hq : sectionQualifies obj.symtab_sect ehdr shdr i = true
    · by_cases hra : (shdr i).sh_type = SHT_RELA
      · simp only [relocateRelsLoop, if_pos hq, if_pos hra]
        exact ⟨rfl, by norm_num [liveBounded]⟩
      · simp only [relocateRelsLoop, if_pos hq, if_neg hra]
        obtain ⟨hf, hb⟩ := relocate_trace_balanced obj (shdr i).sh_offset
          (shdr i).sh_size obj.segment (mallocOk i) m
        split
        · obtain ⟨hf2, hb2⟩ := relocateRelsLoop_trace_balanced obj ehdr shdr
            mallocOk idxs (relocate obj (shdr i).sh_offset (shdr i).sh_size
              obj.segment (mallocOk i) m).mem
          constructor
          · rw [finalLive_append, hf, hf2]
          · exact liveBounded_append _ _ 0 hb (by rw [hf]; exact hb2)
        · exact ⟨hf, hb⟩
    · have hcond : ¬ sectionQualifies obj.symtab_sect ehdr shdr i = true := hq
      simp only [relocateRelsLoop, if_neg hcond]
      exact relocateRelsLoop_trace_balanced obj ehdr shdr mallocOk idxs m

/-- Splitting `List.range n` at an interior point `j`. -/
theorem range_split : ∀ (n j : Nat), j < n →
    ∃ l2 : List Nat, List.range n = List.range j ++ j :: l2 := by
  intro n
  induction n with
  | zero => intro j hj; omega
  | succ n ih =>
    intro j hj
    by_cases hjn : j = n
    · subst hjn
      refine ⟨[], ?_⟩
      simpa using List.range_succ j
    · obtain ⟨l2, hl2⟩ := ih j (by omega)
      refine ⟨l2 ++ [n], ?_⟩
      have hs : List.range (n + 1) = List.range n ++ [n] := by
        simpa using List.range_succ n
      rw [hs, hl2, List.append_assoc, List.cons_append]

/-- Bytes strictly inside the taken range are unaffected by the truncation. -/
theorem byteAt_take (bs : List Nat) (s k : Nat) (h : k < s) :
    byteAt (bs.take s) k = byteAt bs k := by
  simp only [byteAt, List.getD_eq_getElem?_getD]
  rw [List.getElem?_take]
  simp [h]

/-- Words read strictly inside the taken range are unaffected. -/
theorem le32At_take (bs : List Nat) (s k : Nat) (h : k + 4 ≤ s) :
    le32At (bs.take s) k = le32At bs k := by
  unfold le32At
  rw [byteAt_take bs s k (by omega), byteAt_take bs s (k + 1) (by omega),
    byteAt_take bs s (k + 2) (by omega), byteAt_take bs s (k + 3) (by omega)]

/-- Entries decoded strictly inside the taken range are unaffected. -/
theorem decodeRel_take (bs : List Nat) (s i : Nat) (h : 8 * i + 8 ≤ s) :
    decodeRel (bs.take s) i = decodeRel bs i := by
  unfold decodeRel
  rw [le32At_take bs s (8 * i) (by omega),
    le32At_take bs s (8 * i + 4) (by omega)]

/-- The decoded entry list only depends on the first `8 * cnt` bytes. -/
theorem relEntries_take (bs : List Nat) (s cnt : Nat) (h : 8 * cnt ≤ s) :
    relEntries (bs.take s) cnt = relEntries bs cnt := by
  unfold relEntries
  refine List.map_congr_left ?_
  intro i hi
  have hic : i < cnt := List.mem_range.mp hi
  exact decodeRel_take bs s i (by omega)

/-- When the allocation and the table read succeed, `relocate` is the entry
loop over the decoded table, with one `malloc`/`free` pair. -/
theorem relocate_eq_loop (obj : ARMDLObject) (offset size relSegment : Nat)
    (m : Mem) (hread : offset + size ≤ obj.file.length) :
    relocate obj offset size relSegment true m =
      ⟨(relocLoop obj.symtab obj.segmentVMA obj.segment relSegment
          (relEntries (relBytes obj.file offset size)
            (size / sizeofElf32Rel)) m).1,
        (relocLoop obj.symtab obj.segmentVMA obj.segment relSegment
          (relEntries (relBytes obj.file offset size)
            (size / sizeofElf32Rel)) m).2,
        [AllocEvent.alloc, AllocEvent.free]⟩ := by
  unfold relocate
  rw [if_neg (by simp), if_neg (not_not_intro hread)]

/-- Claim C1: for every relocation entry of absolute-address fixup type
(R_ARM_ABS32 or R_ARM_TARGET1) whose symbol's defining-section index is below
SHN_LOPROC, the per-entry action of `relocate` writes back at the target
exactly `oldValue - segmentVMA + segmentRuntimeBase` (32-bit arithmetic):
the patched word equals `V - O + B`, a function of the word previously stored
at the target, the original base and the runtime base only. -/
theorem C1_abs32_patch (symtab : Nat → Elf32_Sym) (VMA B relSegment : Nat)
    (m : Mem) (e : Elf32_Rel)
    (hty : REL_TYPE e.r_info = R_ARM_ABS32 ∨ REL_TYPE e.r_info = R_ARM_TARGET1)
    (hsym : (symtab (REL_INDEX e.r_info)).st_shndx < SHN_LOPROC) :
    ∃ m2, processEntry symtab VMA B relSegment m e = some m2 ∧
      readWord32 m2 (targetAddr relSegment VMA e.r_offset) =
        wrap32 ((readWord32 m (targetAddr relSegment VMA e.r_offset) : Int) -
          (VMA : Int) + (B : Int)) := by
  refine ⟨_, processEntry_internalAbs symtab VMA B relSegment m e hty hsym, ?_⟩
  rw [readWord32_write_relocValue]
  rfl

/-- Witness for C1: one concrete absolute fixup (type 2, symbol section 0,
segment moved from VMA 32768 to base 196608). -/
theorem C1_abs32_patch_witness :
    ∃ m2, processEntry (fun _ => ⟨0⟩) 32768 196608 196608 (fun _ => 0)
        ⟨32784, 2⟩ = some m2 ∧
      readWord32 m2 (targetAddr 196608 32768 32784) =
        wrap32 ((readWord32 (fun _ => 0) (targetAddr 196608 32768 32784) :
          Int) - (32768 : Int) + (196608 : Int)) :=
  C1_abs32_patch (fun _ => ⟨0⟩) 32768 196608 196608 (fun _ => 0) ⟨32784, 2⟩
    (Or.inl (by decide)) (by decide)

/-- Claim C2 (code bug in the source): `relocate` never bounds-checks the
computed target address.  With a 32-byte segment at runtime base 4096
(original VMA 32768) and one R_ARM_ABS32 entry whose offset 33024 resolves to
target address 4352 — outside the segment bounds [4096, 4128) — the call
returns success and patches the out-of-bounds word, instead of failing with
MalformedSectionTable before dereferencing. -/
theorem C2_unchecked_target :
    targetAddr 4096 32768 33024 = 4352 ∧
    4096 + 32 ≤ 4352 ∧
    (relocate ⟨[0, 129, 0, 0, 2, 0, 0, 0], (fun _ => ⟨0⟩), 1, 32768, 4096⟩
      0 8 4096 true (fun _ => 0)).ok = true ∧
    readWord32 (relocate ⟨[0, 129, 0, 0, 2, 0, 0, 0], (fun _ => ⟨0⟩), 1,
      32768, 4096⟩ 0 8 4096 true (fun _ => 0)).mem 4352 = 4294938624 ∧
    readWord32 (fun _ => 0) 4352 = 0 :=
  ⟨by decide, by decide, by decide, by decide, by decide⟩

/-- Claim C3, counterexample: an object whose only relocation section has the
addend-carrying type SHT_RELA with its natural entry size 12
(`sizeof(Elf32_Rela)`) is silently skipped by `relocateRels` — the call
succeeds and processes nothing, rather than failing with
UnsupportedRelocationSectionFormat. -/
theorem C3_rela_silently_skipped :
    ((fun i => if i = 1 then (⟨4, 0, 0, 0, 1, 0, 12⟩ : Elf32_Shdr)
        else ⟨0, 2, 0, 0, 0, 0, 0⟩) 1).sh_type = SHT_RELA ∧
    (relocateRels ⟨[], (fun _ => ⟨0⟩), 1, 0, 0⟩ ⟨2⟩
      (fun i => if i = 1 then ⟨4, 0, 0, 0, 1, 0, 12⟩
        else ⟨0, 2, 0, 0, 0, 0, 0⟩)
      (fun _ => true) (fun _ => 0)).ok = true ∧
    (relocateRels ⟨[], (fun _ => ⟨0⟩), 1, 0, 0⟩ ⟨2⟩
      (fun i => if i = 1 then ⟨4, 0, 0, 0, 1, 0, 12⟩
        else ⟨0, 2, 0, 0, 0, 0, 0⟩)
      (fun _ => true) (fun _ => 0)).processed = [] :=
  ⟨by decide, by decide, by decide⟩

/-- Claim C3 (amended): an SHT_RELA section makes `relocateRels` fail when it
also passes the remaining qualification checks (entry size, link, info,
SHF_ALLOC); and no section of type SHT_RELA is ever handed to `relocate`, so
its bytes are never parsed as simple-encoding entries. -/
theorem C3_rela_rejected (obj : ARMDLObject) (ehdr : Elf32_Ehdr)
    (shdr : Nat → Elf32_Shdr) (mallocOk : Nat → Bool) (m : Mem) (j : Nat)
    (hj : j < ehdr.e_shnum)
    (hq : sectionQualifies obj.symtab_sect ehdr shdr j = true)
    (hra : (shdr j).sh_type = SHT_RELA) :
    (relocateRels obj ehdr shdr mallocOk m).ok = false ∧
    ∀ i ∈ (relocateRels obj ehdr shdr mallocOk m).processed,
      (shdr i).sh_type = SHT_REL := by
  constructor
  · exact relocateRelsLoop_rela_fails obj ehdr shdr mallocOk
      (List.range ehdr.e_shnum) m j (List.mem_range.mpr hj) hq hra
  · intro i hi
    exact (relocateRelsLoop_processed_qualifies obj ehdr shdr mallocOk
      (List.range ehdr.e_shnum) m i hi).2

/-- Witness for the amended C3: a qualifying SHT_RELA section (entry size 8,
correct link, valid info, resident target) aborts the load. -/
theorem C3_rela_rejected_witness :
    (relocateRels ⟨[], (fun _ => ⟨0⟩), 1, 0, 0⟩ ⟨2⟩
      (fun i => if i = 1 then ⟨4, 0, 0, 0, 1, 0, 8⟩
        else ⟨0, 2, 0, 0, 0, 0, 0⟩)
      (fun _ => true) (fun _ => 0)).ok = false :=
  (C3_rela_rejected ⟨[], (fun _ => ⟨0⟩), 1, 0, 0⟩ ⟨2⟩
    (fun i => if i = 1 then ⟨4, 0, 0, 0, 1, 0, 8⟩
      else ⟨0, 2, 0, 0, 0, 0, 0⟩)
    (fun _ => true) (fun _ => 0) 1 (by decide) (by decide) (by decide)).1

/-- Claim C4: a relocation table whose decoded entries contain an unknown
type code makes `relocate` fail at the first such entry: only the earlier
(known) entries are processed, the scratch buffer is still allocated and
freed exactly once, and — at the `relocateRels` level — the first qualifying
section whose `relocate` call fails aborts the section loop and yields no
Plugin. -/
theorem C4_unknown_type_aborts :
    (∀ (obj : ARMDLObject) (offset size relSegment : Nat) (m : Mem)
        (good rest : List Elf32_Rel) (bad : Elf32_Rel),
      offset + size ≤ obj.file.length →
      relEntries (relBytes obj.file offset size) (size / sizeofElf32Rel) =
        good ++ bad :: rest →
      (∀ e ∈ good, relTypeKnown (REL_TYPE e.r_info) = true) →
      relTypeKnown (REL_TYPE bad.r_info) = false →
      (relocate obj offset size relSegment true m).ok = false ∧
      (relocate obj offset size relSegment true m).mem =
        (relocLoop obj.symtab obj.segmentVMA obj.segment relSegment good
          m).2 ∧
      (relocate obj offset size relSegment true m).trace =
        [AllocEvent.alloc, AllocEvent.free]) ∧
    (∀ (obj : ARMDLObject) (ehdr : Elf32_Ehdr) (shdr : Nat → Elf32_Shdr)
        (mallocOk : Nat → Bool) (m : Mem) (j : Nat),
      j < ehdr.e_shnum →
      (∀ i, i < j → sectionQualifies obj.symtab_sect ehdr shdr i = false) →
      sectionQualifies obj.symtab_sect ehdr shdr j = true →
      (shdr j).sh_type = SHT_REL →
      (relocate obj (shdr j).sh_offset (shdr j).sh_size obj.segment
        (mallocOk j) m).ok = false →
      (relocateRels obj ehdr shdr mallocOk m).ok = false ∧
      (relocateRels obj ehdr shdr mallocOk m).processed = [j] ∧
      loadPlugin (relocateRels obj ehdr shdr mallocOk m).ok 0 = none) := by
  constructor
  · intro obj offset size relSegment m good rest bad hread hsplit hgood hbad
    rw [relocate_eq_loop obj offset size relSegment m hread, hsplit,
      relocLoop_firstUnknown obj.symtab obj.segmentVMA obj.segment relSegment
        good bad rest m hgood hbad]
    exact ⟨rfl, rfl, rfl⟩
  · intro obj ehdr shdr mallocOk m j hj hfirst hq hrel hfail
    obtain ⟨l2, hl2⟩ := range_split ehdr.e_shnum j hj
    unfold relocateRels
    rw [hl2, relocateRelsLoop_skip obj ehdr shdr mallocOk (List.range j)
      (j :: l2) m (fun i hi => hfirst i (List.mem_range.mp hi))]
    have hra : ¬ (shdr j).sh_type = SHT_RELA := by
      rw [hrel]
      decide
    simp only [relocateRelsLoop, if_pos hq, if_neg hra]
    rw [if_neg (by simp [hfail])]
    exact ⟨rfl, rfl, rfl⟩

/-- Witness for C4: a one-entry table of unknown type 99 fails, and the same
table reached through a qualifying section makes the whole section loop
fail having processed exactly that section. -/
theorem C4_unknown_type_aborts_witness :
    (relocate ⟨[0, 0, 0, 0, 99, 0, 0, 0], (fun _ => ⟨0⟩), 1, 0, 0⟩
      0 8 0 true (fun _ => 0)).ok = false ∧
    (relocateRels ⟨[0, 0, 0, 0, 99, 0, 0, 0], (fun _ => ⟨0⟩), 1, 0, 0⟩ ⟨1⟩
      (fun _ => ⟨9, 2, 0, 8, 1, 0, 8⟩) (fun _ => true)
      (fun _ => 0)).processed = [0] := by
  constructor
  · exact (C4_unknown_type_aborts.1
      ⟨[0, 0, 0, 0, 99, 0, 0, 0], (fun _ => ⟨0⟩), 1, 0, 0⟩ 0 8 0
      (fun _ => 0) [] [] ⟨0, 99⟩ (by decide) (by decide) (by simp)
      (by decide)).1
  · exact (C4_unknown_type_aborts.2
      ⟨[0, 0, 0, 0, 99, 0, 0, 0], (fun _ => ⟨0⟩), 1, 0, 0⟩ ⟨1⟩
      (fun _ => ⟨9, 2, 0, 8, 1, 0, 8⟩) (fun _ => true) (fun _ => 0) 0
      (by decide) (by decide) (by decide) (by decide) (by decide)).2.1

/-- Claim C5: a relocation table whose entries are all self-relative
(R_ARM_PC24, R_ARM_THM_CALL, R_ARM_CALL, R_ARM_JUMP24) or no-op markers
(R_ARM_V4BX) relocates successfully and leaves the address space — hence
every byte of the target segment — untouched; likewise an absolute fixup
whose symbol is external (defining-section index at or above SHN_LOPROC)
leaves memory untouched. -/
theorem C5_selfrel_no_patch :
    (∀ (obj : ARMDLObject) (offset size relSegment : Nat) (m : Mem),
      offset + size ≤ obj.file.length →
      (∀ e ∈ relEntries (relBytes obj.file offset size)
          (size / sizeofElf32Rel),
        selfRelOrNoop (REL_TYPE e.r_info) = true) →
      (relocate obj offset size relSegment true m).ok = true ∧
      (relocate obj offset size relSegment true m).mem = m) ∧
    (∀ (symtab : Nat → Elf32_Sym) (VMA B relSegment : Nat) (m : Mem)
        (e : Elf32_Rel),
      (REL_TYPE e.r_info = R_ARM_ABS32 ∨
        REL_TYPE e.r_info = R_ARM_TARGET1) →
      SHN_LOPROC ≤ (symtab (REL_INDEX e.r_info)).st_shndx →
      processEntry symtab VMA B relSegment m e = some m) := by
  constructor
  · intro obj offset size relSegment m hread hall
    rw [relocate_eq_loop obj offset size relSegment m hread,
      relocLoop_selfRelOrNoop obj.symtab obj.segmentVMA obj.segment
        relSegment _ m hall]
    exact ⟨rfl, rfl⟩
  · intro symtab VMA B relSegment m e hty hsym
    exact processEntry_externalAbs symtab VMA B relSegment m e hty hsym

/-- Witness for C5: a one-entry PC-relative table leaves memory untouched,
and an absolute fixup against an external symbol is a no-op. -/
theorem C5_selfrel_no_patch_witness :
    ((relocate ⟨[0, 0, 0, 0, 1, 0, 0, 0], (fun _ => ⟨0⟩), 1, 0, 0⟩
        0 8 0 true (fun _ => 0)).ok = true ∧
      (relocate ⟨[0, 0, 0, 0, 1, 0, 0, 0], (fun _ => ⟨0⟩), 1, 0, 0⟩
        0 8 0 true (fun _ => 0)).mem = (fun _ => 0)) ∧
    processEntry (fun _ => ⟨65280⟩) 32768 196608 196608 (fun _ => 0)
      ⟨32784, 2⟩ = some (fun _ => 0) :=
  ⟨C5_selfrel_no_patch.1 ⟨[0, 0, 0, 0, 1, 0, 0, 0], (fun _ => ⟨0⟩), 1, 0, 0⟩
      0 8 0 (fun _ => 0) (by decide) (by decide),
    C5_selfrel_no_patch.2 (fun _ => ⟨65280⟩) 32768 196608 196608 (fun _ => 0)
      ⟨32784, 2⟩ (Or.inl (by decide)) (by decide)⟩

/-- Claim C6: when the declared relocation-table size exceeds the bytes
available in the object stream, `relocate` fails before the entry loop runs:
the address space is returned unchanged (no patch is attempted) and the
scratch buffer has been allocated and freed exactly once. -/
theorem C6_truncated_read (obj : ARMDLObject) (offset size relSegment : Nat)
    (m : Mem) (h : obj.file.length < offset + size) :
    relocate obj offset size relSegment true m =
      ⟨false, m, [AllocEvent.alloc, AllocEvent.free]⟩ := by
  unfold relocate
  rw [if_neg (by simp), if_pos (by omega)]

/-- Witness for C6: reading an 8-byte table from an empty stream fails with
memory untouched. -/
theorem C6_truncated_read_witness :
    relocate ⟨[], (fun _ => ⟨0⟩), 1, 0, 0⟩ 0 8 0 true (fun _ => 0) =
      ⟨false, (fun _ => 0), [AllocEvent.alloc, AllocEvent.free]⟩ :=
  C6_truncated_read ⟨[], (fun _ => ⟨0⟩), 1, 0, 0⟩ 0 8 0 (fun _ => 0)
    (by decide)

/-- Claim C7: every section handed to `relocate` passes all qualification
checks (relocation type, entry size, link to the symbol table, valid info
index, SHF_ALLOC target), and — when the section loop succeeds — every
qualifying section below `e_shnum` was handed to `relocate`. -/
theorem C7_section_qualification (obj : ARMDLObject) (ehdr : Elf32_Ehdr)
    (shdr : Nat → Elf32_Shdr) (mallocOk : Nat → Bool) (m : Mem) :
    (∀ i ∈ (relocateRels obj ehdr shdr mallocOk m).processed,
      sectionQualifies obj.symtab_sect ehdr shdr i = true) ∧
    ((relocateRels obj ehdr shdr mallocOk m).ok = true →
      ∀ j, j < ehdr.e_shnum →
        sectionQualifies obj.symtab_sect ehdr shdr j = true →
        j ∈ (relocateRels obj ehdr shdr mallocOk m).processed) := by
  constructor
  · intro i hi
    exact (relocateRelsLoop_processed_qualifies obj ehdr shdr mallocOk
      (List.range ehdr.e_shnum) m i hi).1
  · intro hok j hj hq
    exact relocateRelsLoop_ok_processes obj ehdr shdr mallocOk
      (List.range ehdr.e_shnum) m hok j (List.mem_range.mpr hj) hq

/-- Witness for C7: in a successful one-section load, the qualifying section
0 is indeed passed to `relocate`. -/
theorem C7_section_qualification_witness :
    0 ∈ (relocateRels ⟨[0, 0, 0, 0, 1, 0, 0, 0], (fun _ => ⟨0⟩), 1, 0, 0⟩ ⟨1⟩
      (fun _ => ⟨9, 2, 0, 8, 1, 0, 8⟩) (fun _ => true)
      (fun _ => 0)).processed :=
  (C7_section_qualification ⟨[0, 0, 0, 0, 1, 0, 0, 0], (fun _ => ⟨0⟩), 1, 0,
      0⟩ ⟨1⟩ (fun _ => ⟨9, 2, 0, 8, 1, 0, 8⟩) (fun _ => true)
      (fun _ => 0)).2 (by decide) 0 (by decide) (by decide)

/-- Claim C8: the scratch-buffer trace of any `relocate` call, and of any
whole `relocateRels` call, has at most one buffer live at every moment and
zero buffers live at the end — every return path frees what it allocated. -/
theorem C8_scratch_buffer_discipline :
    (∀ (obj : ARMDLObject) (offset size relSegment : Nat) (mallocOk : Bool)
        (m : Mem),
      finalLive 0 (relocate obj offset size relSegment mallocOk m).trace =
        0 ∧
      liveBounded 0 (relocate obj offset size relSegment mallocOk m).trace) ∧
    (∀ (obj : ARMDLObject) (ehdr : Elf32_Ehdr) (shdr : Nat → Elf32_Shdr)
        (mallocOk : Nat → Bool) (m : Mem),
      finalLive 0 (relocateRels obj ehdr shdr mallocOk m).trace = 0 ∧
      liveBounded 0 (relocateRels obj ehdr shdr mallocOk m).trace) :=
  ⟨fun obj offset size relSegment mallocOk m =>
      relocate_trace_balanced obj offset size relSegment mallocOk m,
    fun obj ehdr shdr mallocOk m =>
      relocateRelsLoop_trace_balanced obj ehdr shdr mallocOk
        (List.range ehdr.e_shnum) m⟩

/-- Claim C9: patches are applied in entry order and are not rolled back on
failure: a table holding an internal absolute fixup (pre-patch word 32768,
segment moved from VMA 32768 to base 196608) followed by an entry of unknown
type 99 makes `relocate` fail while the word patched by the first entry
keeps its relocated value 196608 instead of its original 32768. -/
theorem C9_no_rollback :
    (relocate ⟨[16, 128, 0, 0, 2, 0, 0, 0, 20, 128, 0, 0, 99, 0, 0, 0],
      (fun _ => ⟨0⟩), 1, 32768, 196608⟩ 0 16 196608 true
      (fun a => if a = 196625 then 128 else 0)).ok = false ∧
    readWord32 (relocate ⟨[16, 128, 0, 0, 2, 0, 0, 0, 20, 128, 0, 0, 99, 0,
      0, 0], (fun _ => ⟨0⟩), 1, 32768, 196608⟩ 0 16 196608 true
      (fun a => if a = 196625 then 128 else 0)).mem 196624 = 196608 ∧
    readWord32 (fun a => if a = 196625 then 128 else 0) 196624 = 32768 :=
  ⟨by decide, by decide, by decide⟩

/-- Claim C10: `relocate` processes exactly `size / sizeof(Elf32_Rel)`
entries: a table smaller than one entry is accepted with nothing processed,
and in general trailing bytes beyond the last whole entry are ignored — the
call behaves exactly as with the truncated size `8 * (size / 8)`. -/
theorem C10_floor_entry_count :
    (∀ (obj : ARMDLObject) (offset size relSegment : Nat) (m : Mem),
      size < sizeofElf32Rel → offset + size ≤ obj.file.length →
      (relocate obj offset size relSegment true m).ok = true ∧
      (relocate obj offset size relSegment true m).mem = m) ∧
    (∀ (obj : ARMDLObject) (offset size relSegment : Nat) (m : Mem),
      offset + size ≤ obj.file.length →
      relocate obj offset size relSegment true m =
        relocate obj offset (sizeofElf32Rel * (size / sizeofElf32Rel))
          relSegment true m) := by
  constructor
  · intro obj offset size relSegment m hsz hread
    have hc : size / sizeofElf32Rel = 0 := Nat.div_eq_of_lt hsz
    rw [relocate_eq_loop obj offset size relSegment m hread, hc]
    exact ⟨rfl, rfl⟩
  · intro obj offset size relSegment m hread
    have hle : sizeofElf32Rel * (size / sizeofElf32Rel) ≤ size :=
      Nat.mul_div_le size sizeofElf32Rel
    have h1 : 8 * (size / sizeofElf32Rel) ≤ size := Nat.mul_div_le size 8
    have h2 : 8 * (size / sizeofElf32Rel) ≤
        sizeofElf32Rel * (size / sizeofElf32Rel) := Nat.le_refl _
    have hcnt : sizeofElf32Rel * (size / sizeofElf32Rel) / sizeofElf32Rel =
        size / sizeofElf32Rel :=
      Nat.mul_div_cancel_left (size / sizeofElf32Rel) (by decide)
    have hent : relEntries (relBytes obj.file offset size)
        (size / sizeofElf32Rel) =
        relEntries (relBytes obj.file offset
          (sizeofElf32Rel * (size / sizeofElf32Rel)))
          (size / sizeofElf32Rel) := by
      unfold relBytes
      rw [relEntries_take (obj.file.drop offset) size
          (size / sizeofElf32Rel) h1,
        relEntries_take (obj.file.drop offset)
          (sizeofElf32Rel * (size / sizeofElf32Rel))
          (size / sizeofElf32Rel) h2]
    rw [relocate_eq_loop obj offset size relSegment m hread,
      relocate_eq_loop obj offset
        (sizeofElf32Rel * (size / sizeofElf32Rel)) relSegment m
        (le_trans (Nat.add_le_add_left hle offset) hread),
      hcnt, hent]

/-- Witness for C10: a 3-byte table is accepted with nothing processed, and a
9-byte table behaves exactly like its 8-byte truncation. -/
theorem C10_floor_entry_count_witness :
    ((relocate ⟨[0, 0, 0, 0, 1, 0, 0, 0, 7], (fun _ => ⟨0⟩), 1, 0, 0⟩
        0 3 0 true (fun _ => 0)).ok = true ∧
      (relocate ⟨[0, 0, 0, 0, 1, 0, 0, 0, 7], (fun _ => ⟨0⟩), 1, 0, 0⟩
        0 3 0 true (fun _ => 0)).mem = (fun _ => 0)) ∧
    relocate ⟨[0, 0, 0, 0, 1, 0, 0, 0, 7], (fun _ => ⟨0⟩), 1, 0, 0⟩
        0 9 0 true (fun _ => 0) =
      relocate ⟨[0, 0, 0, 0, 1, 0, 0, 0, 7], (fun _ => ⟨0⟩), 1, 0, 0⟩
        0 (sizeofElf32Rel * (9 / sizeofElf32Rel)) 0 true (fun _ => 0) :=
  ⟨C10_floor_entry_count.1 ⟨[0, 0, 0, 0, 1, 0, 0, 0, 7], (fun _ => ⟨0⟩), 1,
      0, 0⟩ 0 3 0 (fun _ => 0) (by decide) (by decide),
    C10_floor_entry_count.2 ⟨[0, 0, 0, 0, 1, 0, 0, 0, 7], (fun _ => ⟨0⟩), 1,
      0, 0⟩ 0 9 0 (fun _ => 0) (by decide)⟩
